import Mathlib

/-!
Verification of the seven-stage video-generation pipeline in
backend/app/agents/video_agent/agent.py.

The Python source is shallowly embedded: every function under scrutiny is
translated into an executable Lean definition, with the external services
(Gemini, the Pollinations image endpoint, rembg, TTS, ffmpeg) abstracted as
oracle parameters describing the outcome of each external call.  Machine
strings are modelled as Lean strings (ASCII is all the source manipulates);
Python dicts are association lists with insertion order and
replace-in-place update, matching CPython semantics.
-/

set_option maxRecDepth 10000

/-! ## Python-style string primitives (ASCII fragment used by the source) -/

/-- ASCII lowercase of one character, as Python str.lower acts on ASCII. -/
def pyLowerChar (c : Char) : Char :=
  if 'A' ≤ c ∧ c ≤ 'Z' then Char.ofNat (c.toNat + 32) else c

def pyLowerL (l : List Char) : List Char := l.map pyLowerChar

def pyLower (s : String) : String := String.mk (pyLowerL s.toList)

/-- The characters Python str.strip() and \s treat as whitespace (ASCII). -/
def pySpace (c : Char) : Bool :=
  c = ' ' ∨ c = '\t' ∨ c = '\n' ∨ c = '\r' ∨ c = '\x0b' ∨ c = '\x0c'

def dropLeadingWs : List Char → List Char
  | [] => []
  | c :: cs => if pySpace c then dropLeadingWs cs else c :: cs

/-- Python str.strip() with no argument. -/
def pyStripL (l : List Char) : List Char :=
  ((dropLeadingWs ((dropLeadingWs l).reverse)).reverse)

def pyStrip (s : String) : String := String.mk (pyStripL s.toList)

/-- Does pattern p occur at the head of l? -/
def startsWithL : List Char → List Char → Bool
  | [], _ => true
  | _ :: _, [] => false
  | p :: ps, c :: cs => p = c && startsWithL ps cs

/-- Python substring membership: sub in l. -/
def containsSubL (sub : List Char) : List Char → Bool
  | [] => startsWithL sub []
  | c :: cs => startsWithL sub (c :: cs) || containsSubL sub cs

def containsSub (sub s : String) : Bool := containsSubL sub.toList s.toList

/-- Python str.replace(pat, rep) for a non-empty pattern: replace all
non-overlapping occurrences left to right.  (The source never calls
replace with an empty pattern.) -/
def pyReplaceAux (pat rep : List Char) : Nat → List Char → List Char
  | 0, l => l
  | _ + 1, [] => []
  | n + 1, c :: cs =>
    if startsWithL pat (c :: cs) && !pat.isEmpty then
      rep ++ pyReplaceAux pat rep n (List.drop (pat.length - 1) cs)
    else
      c :: pyReplaceAux pat rep n cs

def pyReplaceL (l pat rep : List Char) : List Char :=
  pyReplaceAux pat rep l.length l

def pyReplace (s pat rep : String) : String :=
  String.mk (pyReplaceL s.toList pat.toList rep.toList)

/-- Maximal runs of non-separator characters — the non-empty tokens produced
by re.split on a character class of separators (Python then discards the
empty strings that split yields at the edges). -/
def tokensGo (isSep : Char → Bool) : List Char → List Char → List (List Char)
  | [], acc => if acc.isEmpty then [] else [acc.reverse]
  | c :: cs, acc =>
    if isSep c then
      if acc.isEmpty then tokensGo isSep cs []
      else acc.reverse :: tokensGo isSep cs []
    else tokensGo isSep cs (c :: acc)

def tokensOf (isSep : Char → Bool) (l : List Char) : List (List Char) :=
  tokensGo isSep l []

/-- Separator class of re.split(r"[_\s-]+", ...) in stage 6. -/
def sepUnderscoreWsDash (c : Char) : Bool := c = '_' || pySpace c || c = '-'

/-- Python str.split() with no argument: split on whitespace runs. -/
def pyWords (s : String) : List String :=
  (tokensOf pySpace s.toList).map String.mk

/-- Python set(...) of a list of strings, as a list of its distinct
elements (first occurrence kept; only cardinalities and membership are
consumed downstream, so iteration order never matters). -/
def dedupGo : List String → List String → List String
  | [], _ => []
  | x :: xs, seen =>
    if seen.contains x then dedupGo xs seen else x :: dedupGo xs (x :: seen)

def dedup (l : List String) : List String := dedupGo l []

/-- Python str.split("\n"): split on each newline, keeping empty pieces. -/
def splitNlGo : List Char → List Char → List (List Char)
  | [], acc => [acc.reverse]
  | c :: cs, acc =>
    if c = '\n' then acc.reverse :: splitNlGo cs []
    else splitNlGo cs (c :: acc)

def splitNl (l : List Char) : List (List Char) := splitNlGo l []

/-! ## JSON values and a model of json.loads

Numbers are kept as their lexemes (the pipeline never computes with them;
it only stores and compares them). -/

inductive Json where
  | null : Json
  | bool : Bool → Json
  | num : String → Json
  | str : String → Json
  | arr : List Json → Json
  | obj : List (String × Json) → Json

mutual

def Json.beq : Json → Json → Bool
  | .null, .null => true
  | .bool a, .bool b => a == b
  | .num a, .num b => a == b
  | .str a, .str b => a == b
  | .arr xs, .arr ys => Json.beqList xs ys
  | .obj xs, .obj ys => Json.beqMembers xs ys
  | _, _ => false

def Json.beqList : List Json → List Json → Bool
  | [], [] => true
  | x :: xs, y :: ys => Json.beq x y && Json.beqList xs ys
  | _, _ => false

def Json.beqMembers : List (String × Json) → List (String × Json) → Bool
  | [], [] => true
  | (k1, v1) :: xs, (k2, v2) :: ys =>
    k1 == k2 && Json.beq v1 v2 && Json.beqMembers xs ys
  | _, _ => false

end

instance : BEq Json := ⟨Json.beq⟩

/-- Lookup in a Python dict modelled as an association list whose keys are
unique by construction (see dictInsert). -/
def dictFind (d : List (String × Json)) (k : String) : Option Json :=
  (d.find? (fun p => p.1 == k)).map (fun p => p.2)

/-- Python dict insertion: an existing key keeps its position and gets the
new value; a new key is appended. -/
def dictInsert (d : List (String × Json)) (k : String) (v : Json) :
    List (String × Json) :=
  if (d.find? (fun p => p.1 == k)).isSome then
    d.map (fun p => if p.1 == k then (k, v) else p)
  else d ++ [(k, v)]

def jsonWsChar (c : Char) : Bool := c = ' ' || c = '\t' || c = '\n' || c = '\r'

def skipJsonWs : List Char → List Char
  | [] => []
  | c :: cs => if jsonWsChar c then skipJsonWs cs else c :: cs

def isDigitChar (c : Char) : Bool := '0' ≤ c && c ≤ '9'

def hexVal (c : Char) : Option Nat :=
  if '0' ≤ c ∧ c ≤ '9' then some (c.toNat - '0'.toNat)
  else if 'a' ≤ c ∧ c ≤ 'f' then some (c.toNat - 'a'.toNat + 10)
  else if 'A' ≤ c ∧ c ≤ 'F' then some (c.toNat - 'A'.toNat + 10)
  else none

/-- Body of a JSON string after the opening quote.  Strict mode as in
json.loads: raw control characters are rejected; the standard escapes and
\uXXXX are recognised. -/
def parseStrBody : Nat → List Char → List Char → Option (String × List Char)
  | 0, _, _ => none
  | _ + 1, [], _ => none
  | fuel + 1, c :: cs, acc =>
    if c = '"' then some (String.mk acc.reverse, cs)
    else if c = '\\' then
      match cs with
      | [] => none
      | e :: cs1 =>
        if e = '"' then parseStrBody fuel cs1 ('"' :: acc)
        else if e = '\\' then parseStrBody fuel cs1 ('\\' :: acc)
        else if e = '/' then parseStrBody fuel cs1 ('/' :: acc)
        else if e = 'b' then parseStrBody fuel cs1 ('\x08' :: acc)
        else if e = 'f' then parseStrBody fuel cs1 ('\x0c' :: acc)
        else if e = 'n' then parseStrBody fuel cs1 ('\n' :: acc)
        else if e = 'r' then parseStrBody fuel cs1 ('\r' :: acc)
        else if e = 't' then parseStrBody fuel cs1 ('\t' :: acc)
        else if e = 'u' then
          match cs1 with
          | h1 :: h2 :: h3 :: h4 :: cs2 =>
            match hexVal h1, hexVal h2, hexVal h3, hexVal h4 with
            | some a, some b, some c3, some d =>
              let n := ((a * 16 + b) * 16 + c3) * 16 + d
              if h : n.isValidChar then
                parseStrBody fuel cs2 (Char.ofNatAux n h :: acc)
              else none
            | _, _, _, _ => none
          | _ => none
        else none
    else if c.toNat < 32 then none
    else parseStrBody fuel cs (c :: acc)

/-- Lexeme of a JSON number: -?(0|[1-9][0-9]*)(.[0-9]+)?([eE][+-]?[0-9]+)? -/
def parseNum (l : List Char) : Option (String × List Char) :=
  let (sign, l1) :=
    match l with
    | '-' :: rest => (['-'], rest)
    | _ => (([] : List Char), l)
  match l1 with
  | [] => none
  | c :: _ =>
    if !isDigitChar c then none
    else
      let intPart := l1.takeWhile isDigitChar
      let rest1 := l1.dropWhile isDigitChar
      -- json rejects leading zeros in multi-digit integer parts
      if intPart.length > 1 ∧ intPart.headD '0' = '0' then none
      else
        let (fracPart, rest2) :=
          match rest1 with
          | '.' :: r =>
            let ds := r.takeWhile isDigitChar
            if ds.isEmpty then (([] : List Char), rest1)
            else ('.' :: ds, r.dropWhile isDigitChar)
          | _ => (([] : List Char), rest1)
        if fracPart.isEmpty ∧ rest2 ≠ rest1 then none
        else
          let (expPart, rest3) :=
            match rest2 with
            | e :: r =>
              if e = 'e' ∨ e = 'E' then
                let (es, r1) :=
                  match r with
                  | s :: r2 => if s = '+' ∨ s = '-' then ([e, s], r2) else ([e], r)
                  | [] => ([e], r)
                let ds := r1.takeWhile isDigitChar
                if ds.isEmpty then (([] : List Char), rest2)
                else (es ++ ds, r1.dropWhile isDigitChar)
              else (([] : List Char), rest2)
            | [] => (([] : List Char), rest2)
          some (String.mk (sign ++ intPart ++ fracPart ++ expPart), rest3)

mutual

/-- One JSON value, leading whitespace allowed; returns the rest of the
input.  Fuel strictly decreases at every recursive call. -/
def parseValue : Nat → List Char → Option (Json × List Char)
  | 0, _ => none
  | fuel + 1, l =>
    match skipJsonWs l with
    | [] => none
    | c :: cs =>
      if c = 'n' then
        match cs with
        | 'u' :: 'l' :: 'l' :: r => some (Json.null, r)
        | _ => none
      else if c = 't' then
        match cs with
        | 'r' :: 'u' :: 'e' :: r => some (Json.bool true, r)
        | _ => none
      else if c = 'f' then
        match cs with
        | 'a' :: 'l' :: 's' :: 'e' :: r => some (Json.bool false, r)
        | _ => none
      else if c = 'N' then
        match cs with
        | 'a' :: 'N' :: r => some (Json.num "NaN", r)
        | _ => none
      else if c = 'I' then
        match cs with
        | 'n' :: 'f' :: 'i' :: 'n' :: 'i' :: 't' :: 'y' :: r =>
          some (Json.num "Infinity", r)
        | _ => none
      else if c = '-' ∧ cs.headD ' ' = 'I' then
        match cs with
        | 'I' :: 'n' :: 'f' :: 'i' :: 'n' :: 'i' :: 't' :: 'y' :: r =>
          some (Json.num "-Infinity", r)
        | _ => none
      else if c = '"' then
        match parseStrBody (cs.length + 1) cs [] with
        | some (s, r) => some (Json.str s, r)
        | none => none
      else if c = '[' then
        match skipJsonWs cs with
        | ']' :: r => some (Json.arr [], r)
        | _ => parseElems fuel cs []
      else if c = '{' then
        match skipJsonWs cs with
        | '}' :: r => some (Json.obj [], r)
        | _ => parseMembers fuel cs []
      else if c = '-' ∨ isDigitChar c then
        match parseNum (c :: cs) with
        | some (s, r) => some (Json.num s, r)
        | none => none
      else none

/-- Elements of a non-empty array, input positioned after '[' or ','. -/
def parseElems : Nat → List Char → List Json → Option (Json × List Char)
  | 0, _, _ => none
  | fuel + 1, l, acc =>
    match parseValue fuel l with
    | none => none
    | some (v, r) =>
      match skipJsonWs r with
      | ',' :: r1 => parseElems fuel r1 (v :: acc)
      | ']' :: r1 => some (Json.arr (v :: acc).reverse, r1)
      | _ => none

/-- Members of a non-empty object, input positioned after '{' or ','.
Duplicate keys overwrite as in a Python dict. -/
def parseMembers : Nat → List Char → List (String × Json) →
    Option (Json × List Char)
  | 0, _, _ => none
  | fuel + 1, l, acc =>
    match skipJsonWs l with
    | '"' :: cs =>
      match parseStrBody (cs.length + 1) cs [] with
      | none => none
      | some (k, r) =>
        match skipJsonWs r with
        | ':' :: r1 =>
          match parseValue fuel r1 with
          | none => none
          | some (v, r2) =>
            match skipJsonWs r2 with
            | ',' :: r3 => parseMembers fuel r3 (dictInsert acc k v)
            | '}' :: r3 => some (Json.obj (dictInsert acc k v), r3)
            | _ => none
        | _ => none
    | _ => none

end

/-- Model of json.loads: one JSON document, optionally surrounded by
whitespace, nothing else. -/
def json_loads (s : String) : Option Json :=
  let cs := s.toList
  match parseValue (2 * cs.length + 2) cs with
  | none => none
  | some (v, rest) =>
    match skipJsonWs rest with
    | [] => some v
    | _ => none

/-! ## robust_parse_json (agent.py lines 106-131)

The second tier applies re.search with the pattern
(\x7b(?:.|\n)*\x7d|\[(?:.|\n)*\]): the leftmost position at which either
alternative matches wins, and at that position the greedy body extends the
match to the LAST closing brace (resp. bracket) in the remaining text. -/

/-- Prefix of l up to and including the last occurrence of c, if any. -/
def takeToLast (c : Char) : List Char → Option (List Char)
  | [] => none
  | x :: xs =>
    match takeToLast c xs with
    | some r => some (x :: r)
    | none => if x = c then some [x] else none

/-- The substring captured by re.search of the extraction pattern. -/
def regexExtract : List Char → Option (List Char)
  | [] => none
  | c :: cs =>
    if c = '{' then
      match takeToLast '}' cs with
      | some r => some (c :: r)
      | none => regexExtract cs
    else if c = '[' then
      match takeToLast ']' cs with
      | some r => some (c :: r)
      | none => regexExtract cs
    else regexExtract cs

/-- Third tier: text.strip().split("\n"), keep lines whose strip is
non-empty, join with no separator. -/
def blankLineCleaned (s : String) : String :=
  String.mk (((splitNl (pyStripL s.toList)).filter
    (fun ln => !(pyStripL ln).isEmpty)).flatten)

/-- agent.py robust_parse_json: direct parse, then parse of the regex
capture, then parse of the blank-line-stripped join, else ValueError. -/
def robust_parse_json (text : String) : Except String Json :=
  match json_loads text with
  | some j => Except.ok j
  | none =>
    let second :=
      match regexExtract text.toList with
      | some sub => json_loads (String.mk sub)
      | none => none
    match second with
    | some j => Except.ok j
    | none =>
      match json_loads (blankLineCleaned text) with
      | some j => Except.ok j
      | none => Except.error "Unable to parse JSON from model output"

/-! ## validate_script_json (agent.py lines 151-207)

The input is the already-parsed JSON object (stage 1 checks
isinstance(parsed, dict) before calling), so the model takes the dict.
The section-title word-count check only emits a warning and does not
affect the returned value. -/

/-- isinstance(v, str) and len(v.strip()) > 0, for an optional dict entry
(absent entries and non-strings both fail, as in the source's sequenced
key-presence and isinstance checks). -/
def isNonBlankStr : Option Json → Bool
  | some (Json.str s) => !(pyStripL s.toList).isEmpty
  | _ => false

def requiredSegmentFields : List String :=
  ["section_title", "narration", "image_description", "educational_goal"]

def validSegment : Json → Bool
  | Json.obj kvs => requiredSegmentFields.all (fun f => isNonBlankStr (dictFind kvs f))
  | _ => false

def validate_script_json (d : List (String × Json)) : Bool :=
  ["video_title", "video_intro", "segments"].all (fun k => (dictFind d k).isSome) &&
  isNonBlankStr (dictFind d "video_title") &&
  isNonBlankStr (dictFind d "video_intro") &&
  (match dictFind d "segments" with
   | some (Json.arr segs) => !segs.isEmpty && segs.all validSegment
   | _ => false)

/-! ## validate_assets_json (agent.py lines 210-219) and the stage 2
validation step (lines 330-336)

The source only tests k not in a for the four required keys: values are
never type-checked and never tested for emptiness.  Python's in operator
is key membership for dicts, substring membership for strings, element
membership for lists, and a TypeError for non-iterables; the model keeps
the error case explicit. -/

def assetRequiredKeys : List String := ["name", "style", "purpose", "prompt"]

/-- Python k in a for a JSON value a. -/
def pyInJson (k : String) : Json → Except String Bool
  | Json.obj kvs => Except.ok (dictFind kvs k).isSome
  | Json.str s => Except.ok (containsSub k s)
  | Json.arr xs => Except.ok (xs.contains (Json.str k))
  | _ => Except.error "TypeError: argument is not iterable"

def assetHasKeys (a : Json) : List String → Except String Bool
  | [] => Except.ok true
  | k :: ks =>
    match pyInJson k a with
    | Except.error e => Except.error e
    | Except.ok false => Except.ok false
    | Except.ok true => assetHasKeys a ks

def assetsAllValid : List Json → Except String Bool
  | [] => Except.ok true
  | a :: rest =>
    match assetHasKeys a assetRequiredKeys with
    | Except.error e => Except.error e
    | Except.ok false => Except.ok false
    | Except.ok true => assetsAllValid rest

def validate_assets_json (j : Json) : Except String Bool :=
  match j with
  | Json.arr xs => assetsAllValid xs
  | _ => Except.ok false

/-- Stage 2, lines 330-336: if not validate_assets_json(assets) then
raise ValueError("Invalid assets JSON"); otherwise the assets are
persisted as-is. -/
def stage2_validate (assets : Json) : Except String Unit :=
  match validate_assets_json assets with
  | Except.error e => Except.error e
  | Except.ok true => Except.ok ()
  | Except.ok false => Except.error "Invalid assets JSON"

/-! ## Stage 3: image generation with retry (agent.py lines 344-420) -/

/-- re.sub(r"[^A-Za-z0-9_-]", "_", name): a single-character class, so the
substitution is an independent per-character replacement. -/
def sanitizeChar (c : Char) : Char :=
  if ('A' ≤ c ∧ c ≤ 'Z') ∨ ('a' ≤ c ∧ c ≤ 'z') ∨ ('0' ≤ c ∧ c ≤ '9') ∨
      c = '_' ∨ c = '-' then c
  else '_'

def sanitizeName (s : String) : String := String.mk (s.toList.map sanitizeChar)

/-- One produced image record.  The source builds the success dict without
a "simplified" key on the original-prompt path and with "simplified": True
on the simplified-prompt path, so the Bool false here means the key is
absent. -/
structure ImageResult where
  name : String
  path : String
  prompt : String
  simplified : Bool
deriving DecidableEq, Repr

/-- The inner for attempt in range(1, 4) loop: up to n calls, the i-th
call of this asset being call number base + i to the endpoint oracle;
returns the call number of the first success. -/
def tryAttempts (ep : Nat → Bool) (base : Nat) : Nat → Option Nat
  | 0 => none
  | n + 1 => if ep base then some base else tryAttempts ep (base + 1) n

/-- Lines 363-414, the per-asset body: three attempts with the original
prompt, then (only if all failed) a simplification request and three
attempts with the simplified prompt.  ep i tells whether the i-th
endpoint call for this asset returns a valid image (HTTP success and a
payload of at least 1000 bytes); simplify models
simplify_image_prompt, which never raises (it falls back to an
8-word truncation internally).  Besides the produced record, the list of
prompts sent — one entry per endpoint call, in order — is returned so
call counts are observable. -/
def generateOneImage (ep : Nat → Bool) (simplify : String → String)
    (imagesDir name originalPrompt : String) :
    Option ImageResult × List String :=
  let imgPath := imagesDir ++ "/" ++ name ++ ".png"
  match tryAttempts ep 0 3 with
  | some k =>
    (some ⟨name, imgPath, originalPrompt, false⟩,
     List.replicate (k + 1) originalPrompt)
  | none =>
    let sp := simplify originalPrompt
    match tryAttempts ep 3 3 with
    | some k =>
      (some ⟨name, imgPath, sp, true⟩,
       List.replicate 3 originalPrompt ++ List.replicate (k - 2) sp)
    | none =>
      (none, List.replicate 3 originalPrompt ++ List.replicate 3 sp)

/-- A stage 2 asset as stage 3 reads it.  Only the two keys stage 3
touches are modelled; a present key holds a JSON string (the shape the
validated stage 2 output has in practice — validate_assets_json checks
presence only, and a present non-string value would make the Python crash
in re.sub / quote, outside this model). -/
structure Asset where
  name : Option String
  prompt : Option String
deriving DecidableEq, Repr

/-- re.sub(r"[^A-Za-z0-9_-]", "_", item.get("name", "asset")). -/
def assetFileName (a : Asset) : String := sanitizeName (a.name.getD "asset")

/-- item.get("prompt") or item.get("name"): Python or falls through on a
falsy left operand (None or ""), so the result is None exactly when the
prompt is absent or empty and the name is absent. -/
def assetOriginalPrompt (a : Asset) : Option String :=
  match a.prompt with
  | some p => if p = "" then a.name else some p
  | none => a.name

/-- Stage 3 over the whole asset list (lines 356-420).  ep idx is the
per-call endpoint oracle for the asset at position idx.  A missing
original prompt would make requests.utils.quote raise a TypeError
before any endpoint call; the model keeps that case explicit as an
Except.error.  Successes are appended to the results list; a failed
asset only produces a log line. -/
def stage3Go (ep : Nat → Nat → Bool) (simplify : String → String)
    (imagesDir : String) : List Asset → Nat → Except String (List ImageResult)
  | [], _ => Except.ok []
  | a :: rest, idx =>
    match assetOriginalPrompt a with
    | none => Except.error "TypeError: quote of None"
    | some pr =>
      let one := generateOneImage (ep idx) simplify imagesDir (assetFileName a) pr
      match stage3Go ep simplify imagesDir rest (idx + 1) with
      | Except.error e => Except.error e
      | Except.ok rs =>
        Except.ok (match one.1 with
          | some r => r :: rs
          | none => rs)

def stage3_generate_images (ep : Nat → Nat → Bool) (simplify : String → String)
    (imagesDir : String) (assets : List Asset) : Except String (List ImageResult) :=
  stage3Go ep simplify imagesDir assets 0

/-! ## Stage 4: background removal (agent.py lines 423-479) -/

/-- One entry of the images_info list flowing from stage 3 to stages 4-6.
Optional fields model dict keys that may be absent. -/
structure ImgInfo where
  name : Option String
  path : Option String
  prompt : Option String
  simplified : Bool
  originalPath : Option String
  backgroundRemoved : Bool
deriving DecidableEq, Repr

def imageResultToInfo (r : ImageResult) : ImgInfo :=
  ⟨some r.name, some r.path, some r.prompt, r.simplified, none, false⟩

/-- Lines 440-476, the per-image body.  pathExists is os.path.exists;
removeOk idx tells whether the rembg call (and the surrounding reads and
writes) for the image at position idx succeeds.  not original_path in
Python is true for both a missing key and an empty string. -/
def stage4Process (pathExists : String → Bool) (removeOk : Nat → Bool)
    (outputDir : String) (idx : Nat) (img : ImgInfo) : ImgInfo :=
  match img.path with
  | none => img
  | some p =>
    if p = "" ∨ ¬ pathExists p then img
    else
      let name := img.name.getD ("image_" ++ toString idx)
      let outPath := outputDir ++ "/no_bg/" ++ name ++ "_nobg.png"
      if removeOk idx then
        { img with path := some outPath, originalPath := some p,
                   backgroundRemoved := true }
      else img

def stage4Go (pathExists : String → Bool) (removeOk : Nat → Bool)
    (outputDir : String) : List ImgInfo → Nat → List ImgInfo
  | [], _ => []
  | img :: rest, idx =>
    stage4Process pathExists removeOk outputDir idx img ::
      stage4Go pathExists removeOk outputDir rest (idx + 1)

/-- stage4_remove_backgrounds: if rembg is unavailable the input list is
returned unchanged; otherwise each entry is processed independently, kept
in order, and per-image failures fall back to the original entry. -/
def stage4_remove_backgrounds (rembgAvailable : Bool)
    (pathExists : String → Bool) (removeOk : Nat → Bool) (outputDir : String)
    (imagesInfo : List ImgInfo) : List ImgInfo :=
  if ¬ rembgAvailable then imagesInfo
  else stage4Go pathExists removeOk outputDir imagesInfo 0

/-! ## Stage 5: slide layout planning (agent.py lines 519-535) -/

structure Segment where
  section_title : String
  narration : String
  educational_goal : String
deriving DecidableEq, Repr

/-- len(seg.get("narration", "").split()). -/
def narrationWordCount (seg : Segment) : Nat := (pyWords seg.narration).length

/-- max(5, min(12, words // 2)). -/
def defaultSlideDuration (seg : Segment) : Nat :=
  max 5 (min 12 (narrationWordCount seg / 2))

/-- dict.setdefault: an existing key is kept, a missing one is appended
with the given value. -/
def dictSetdefault (d : List (String × Json)) (k : String) (v : Json) :
    List (String × Json) :=
  if (dictFind d k).isSome then d else d ++ [(k, v)]

/-- The synthesized minimal slide used when the parsed response is not a
dict (line 527). -/
def fallbackSlide (seg : Segment) : List (String × Json) :=
  [("slide_title", Json.str seg.section_title),
   ("caption", Json.str seg.educational_goal),
   ("slide_duration", Json.num "6"),
   ("images", Json.arr [])]

/-- Lines 524-531, the per-segment body of stage 5: parse the raw model
response with robust_parse_json (uncaught, so a ValueError there
propagates out of the stage), fall back to a synthesized slide when the
parsed value is not a dict, then setdefault the three keys. -/
def stage5ProcessSegment (seg : Segment) (raw : String) :
    Except String (List (String × Json)) :=
  match robust_parse_json raw with
  | Except.error e => Except.error e
  | Except.ok parsed =>
    let slide :=
      match parsed with
      | Json.obj kvs => kvs
      | _ => fallbackSlide seg
    let slide := dictSetdefault slide "slide_title" (Json.str seg.section_title)
    let slide := dictSetdefault slide "caption" (Json.str seg.educational_goal)
    let slide := dictSetdefault slide "slide_duration"
      (Json.num (toString (defaultSlideDuration seg)))
    Except.ok slide

/-! ## Stage 6: asset-name resolution (agent.py lines 598-705)

String-keyed dict for the image lookups; insertion follows Python dict
semantics (existing key: value replaced in place; new key: appended). -/

def sdictFind (d : List (String × String)) (k : String) : Option String :=
  (d.find? (fun p => p.1 == k)).map (fun p => p.2)

def sdictInsert (d : List (String × String)) (k v : String) :
    List (String × String) :=
  if (d.find? (fun p => p.1 == k)).isSome then
    d.map (fun p => if p.1 == k then (k, v) else p)
  else d ++ [(k, v)]

/-- name.lower().replace("_nobg", "").replace("_", "").replace(" ", "")
.replace("-", "") — normalization applied to available image names. -/
def normalizeAvail (name : String) : String :=
  pyReplace (pyReplace (pyReplace (pyReplace (pyLower name)
    "_nobg" "") "_" "") " " "") "-" ""

/-- img_name.lower().replace("_", "").replace(" ", "").replace("-", "") —
normalization applied to the requested name (note: no "_nobg" removal on
this side). -/
def normalizeRequest (name : String) : String :=
  pyReplace (pyReplace (pyReplace (pyLower name) "_" "") " " "") "-" ""

/-- Lines 611-631: build image_lookup and image_files_by_normalized from
images_info, skipping entries with a missing/empty name or path or a
non-existing path. -/
def buildLookupsGo (pathExists : String → Bool) :
    List ImgInfo → List (String × String) → List (String × String) →
    (List (String × String) × List (String × String))
  | [], lk, nm => (lk, nm)
  | img :: rest, lk, nm =>
    let name := img.name.getD ""
    let path := img.path.getD ""
    if name = "" ∨ path = "" ∨ ¬ pathExists path then
      buildLookupsGo pathExists rest lk nm
    else
      let normalized := normalizeAvail name
      let lk := sdictInsert lk name path
      let lk := sdictInsert lk (pyLower name) path
      let nm := sdictInsert nm normalized path
      let lk :=
        if containsSub "_nobg" (pyLower name) then
          let withoutNobg := pyReplace (pyReplace name "_nobg" "") "_NOBG" ""
          sdictInsert (sdictInsert lk withoutNobg path) (pyLower withoutNobg) path
        else lk
      buildLookupsGo pathExists rest lk nm

def buildLookups (pathExists : String → Bool) (imagesInfo : List ImgInfo) :
    List (String × String) × List (String × String) :=
  buildLookupsGo pathExists imagesInfo [] []

/-- set(re.split(r"[_\s-]+", s)) with the empty string discarded. -/
def wordSet (s : String) : List String :=
  dedup ((tokensOf sepUnderscoreWsDash s.toList).map String.mk)

/-- Number of common elements of two Python sets represented as
duplicate-free lists. -/
def interCount (a b : List String) : Nat := (a.filter b.contains).length

/-- Lines 683-700, the word-overlap pass: fold over images_info keeping
the best score as an exact rational bestC / bestM (the source compares
float quotients; for the small word-set sizes at play the comparisons
agree with exact rational arithmetic).  The running best path stores
img_info.get("path") flattened to "" for an absent key — Python keeps
None there and both None and "" fail the final truthiness test. -/
def wordMatchGo (requestWords : List String) :
    List ImgInfo → Nat → Nat → String → Option String
  | [], bestC, _, bestPath =>
    if bestC ≠ 0 ∧ bestPath ≠ "" then some bestPath else none
  | img :: rest, bestC, bestM, bestPath =>
    let availableName := pyReplace (pyLower (img.name.getD "")) "_nobg" ""
    let availableWords := wordSet availableName
    let c := interCount requestWords availableWords
    let m := max requestWords.length availableWords.length
    if 0 < c ∧ c * bestM > bestC * m ∧ 2 * c ≥ m then
      wordMatchGo requestWords rest c m (img.path.getD "")
    else
      wordMatchGo requestWords rest bestC bestM bestPath

/-- The final if best_match: guard — a best path that is Python-falsy
(None modelled as "") yields no match.  bestC = 0 encodes that no
candidate ever qualified. -/
def wordMatch (imagesInfo : List ImgInfo) (request : String) : Option String :=
  wordMatchGo (wordSet (pyLower request)) imagesInfo 0 1 ""

/-- Lines 650-700: the full resolution cascade for one requested image
name.  The returned tag records which pass matched (1 exact-variant,
2 normalized, 3 substring, 4 word overlap); the source itself only
returns the path, the tag is observational. -/
def resolveImageName (pathExists : String → Bool) (imagesInfo : List ImgInfo)
    (imgName : String) : Option (String × Nat) :=
  let lk := (buildLookups pathExists imagesInfo).1
  let nm := (buildLookups pathExists imagesInfo).2
  let variants := [imgName, pyLower imgName, imgName ++ "_nobg",
                   pyLower imgName ++ "_nobg"]
  match variants.findSome? (fun v => sdictFind lk v) with
  | some p => some (p, 1)
  | none =>
    let nr := normalizeRequest imgName
    match sdictFind nm nr with
    | some p => some (p, 2)
    | none =>
      match nm.find? (fun kv => containsSub nr kv.1 || containsSub kv.1 nr) with
      | some kv => some (kv.2, 3)
      | none =>
        match wordMatch imagesInfo imgName with
        | some p => some (p, 4)
        | none => none

/-- The found_images accumulation of the slide loop restricted to name
resolution: requested names that resolve are kept in order, unresolved
ones are dropped with a warning (continue), never an error. -/
def resolveSlideImages (pathExists : String → Bool) (imagesInfo : List ImgInfo)
    (requests : List String) : List String :=
  requests.filterMap (fun r => (resolveImageName pathExists imagesInfo r).map (·.1))

/-! ## Stage 7: video composition, per-slide loop (agent.py lines 954-1037)

ttsOutcome i models tts_synthesize for slide i (ok, or the RuntimeError
message raised by every failure path of that function); imageFor i models
the image-selection chain (Canva slide, named image, any PNG — none when
no image at all is found); renderOk i models the exit status of the
per-slide ffmpeg invocation, which the source runs with check=True. -/

def stage7Go (ttsOutcome : Nat → Except String Unit)
    (imageFor : Nat → Option String) (renderOk : Nat → Bool)
    (tmpDir : String) : Nat → Nat → Except String (List String)
  | _, 0 => Except.ok []
  | i, n + 1 =>
    match ttsOutcome i with
    | Except.error e =>
      Except.error ("Failed to generate audio for slide " ++ toString i ++ ": "
        ++ e ++ ". Video creation cannot continue without audio narration.")
    | Except.ok _ =>
      match imageFor i with
      | none =>
        -- "No images found for slide %s — skipping": omitted, loop continues
        stage7Go ttsOutcome imageFor renderOk tmpDir (i + 1) n
      | some _ =>
        if renderOk i then
          match stage7Go ttsOutcome imageFor renderOk tmpDir (i + 1) n with
          | Except.error e => Except.error e
          | Except.ok rest =>
            Except.ok ((tmpDir ++ "/slide_" ++ toString i ++ ".mp4") :: rest)
        else
          -- subprocess.run(..., check=True) raises CalledProcessError
          Except.error "CalledProcessError"

/-- The per-slide phase of stage7_compose_video over numSlides slides,
returning the concat list (segment_files) or the propagated error. -/
def stage7SegmentFiles (ttsOutcome : Nat → Except String Unit)
    (imageFor : Nat → Option String) (renderOk : Nat → Bool)
    (tmpDir : String) (numSlides : Nat) : Except String (List String) :=
  stage7Go ttsOutcome imageFor renderOk tmpDir 0 numSlides

/-! # Claims -/

/-! ## C2: the JSON recovery protocol -/

/-- C2 counterexample.  The claim states that for an input containing two
JSON blocks the recovery protocol returns the first block.  In the source
the extraction regex is greedy: on "noise \x7b"a":1\x7d and \x7b"b":2\x7d tail" it
captures the span from the first opening brace to the last closing brace,
which is not valid JSON, and the blank-line tier cannot help either, so
robust_parse_json raises instead of returning \x7b"a":1\x7d. -/
theorem robust_parse_json_two_blocks_fails :
    robust_parse_json "noise \x7b\"a\":1\x7d and \x7b\"b\":2\x7d tail" =
      Except.error "Unable to parse JSON from model output" ∧
    robust_parse_json "noise \x7b\"a\":1\x7d and \x7b\"b\":2\x7d tail" ≠
      Except.ok (Json.obj [("a", Json.num "1")]) := by
  refine ⟨rfl, ?_⟩
  intro h
  rw [show robust_parse_json "noise \x7b\"a\":1\x7d and \x7b\"b\":2\x7d tail" =
    Except.error "Unable to parse JSON from model output" from rfl] at h
  exact Except.noConfusion h

/-- C2 (amended): robust_parse_json first attempts a direct parse (and
returns its value when it succeeds); on failure it extracts the span from
the first opening brace or bracket that has a later closer of the same
kind, extending greedily to the last such closer in the text — not the
first balanced block — and parses that; on failure it strips blank lines
and retries; otherwise it fails with a parse error.  Consequently
"noise \x7b"a":1\x7d noise" yields \x7b"a":1\x7d, "not json at all" fails, and an
input containing two JSON blocks separated by noise fails rather than
returning the first block. -/
theorem robust_parse_json_protocol :
    (∀ s j, json_loads s = some j → robust_parse_json s = Except.ok j) ∧
    robust_parse_json "noise \x7b\"a\":1\x7d noise" =
      Except.ok (Json.obj [("a", Json.num "1")]) ∧
    robust_parse_json "not json at all" =
      Except.error "Unable to parse JSON from model output" ∧
    robust_parse_json "noise \x7b\"a\":1\x7d and \x7b\"b\":2\x7d tail" =
      Except.error "Unable to parse JSON from model output" := by
  refine ⟨?_, rfl, rfl, rfl⟩
  intro s j h
  simp [robust_parse_json, h]

/-- Witness for robust_parse_json_protocol: its universally quantified
first conjunct applied at a concrete directly-parseable input. -/
theorem robust_parse_json_protocol_witness :
    robust_parse_json "[7]" = Except.ok (Json.arr [Json.num "7"]) :=
  robust_parse_json_protocol.1 "[7]" (Json.arr [Json.num "7"]) rfl

/-! ## C5: validate_script acceptance characterization -/

def FieldPred := List (String × Json) → String → Prop

/-- The claim's literal reading of a required field: present, a string,
and non-empty. -/
def NonEmptyStrAt (d : List (String × Json)) (k : String) : Prop :=
  ∃ s, dictFind d k = some (Json.str s) ∧ s ≠ ""

/-- What the source actually checks: present, a string, and non-blank
(non-empty after stripping whitespace). -/
def NonBlankStrAt (d : List (String × Json)) (k : String) : Prop :=
  ∃ s, dictFind d k = some (Json.str s) ∧ pyStrip s ≠ ""

def SegmentObjSpec (P : FieldPred) (seg : Json) : Prop :=
  ∃ kvs, seg = Json.obj kvs ∧ ∀ f ∈ requiredSegmentFields, P kvs f

/-- The spec's script shape, parametrized by the required-field
predicate: non-empty-string title and intro, a non-empty segments list
whose members are objects with the four required fields. -/
def ScriptSpec (P : FieldPred) (d : List (String × Json)) : Prop :=
  P d "video_title" ∧ P d "video_intro" ∧
  ∃ segs, dictFind d "segments" = some (Json.arr segs) ∧ segs ≠ [] ∧
    ∀ seg ∈ segs, SegmentObjSpec P seg

lemma pyStrip_eq_empty_iff (s : String) :
    pyStrip s = "" ↔ pyStripL s.toList = [] := by
  constructor
  · intro h
    exact congrArg String.data h
  · intro h
    apply String.ext
    show pyStripL s.toList = "".data
    rw [h]

lemma isNonBlankStr_iff (o : Option Json) :
    isNonBlankStr o = true ↔ ∃ s, o = some (Json.str s) ∧ pyStrip s ≠ "" := by
  cases o with
  | none => simp [isNonBlankStr]
  | some j =>
    cases j <;> simp [isNonBlankStr]
    case str s =>
      rw [pyStrip_eq_empty_iff]
      exact Iff.rfl

lemma validSegment_iff (seg : Json) :
    validSegment seg = true ↔ SegmentObjSpec NonBlankStrAt seg := by
  cases seg <;> simp [validSegment, SegmentObjSpec]
  case obj kvs =>
    simp [List.all_eq_true, isNonBlankStr_iff, NonBlankStrAt]

/-- A script whose video_title is the whitespace-only string " ": a
non-empty string, hence accepted under the claim's wording, yet rejected
by the source. -/
def scriptBlankTitle : List (String × Json) :=
  [("video_title", Json.str " "),
   ("video_intro", Json.str "A friendly intro."),
   ("segments", Json.arr [Json.obj
     [("section_title", Json.str "What We Studied"),
      ("narration", Json.str "We studied a new medicine."),
      ("image_description", Json.str "A cartoon pill."),
      ("educational_goal", Json.str "Understand the study.")]])]

/-- C5 counterexample.  The claim says validate_script accepts every JSON
object whose required fields are non-empty strings.  scriptBlankTitle
satisfies that wording (its video_title " " is a non-empty string), but
the source tests len(value.strip()) == 0 and rejects it. -/
theorem validate_script_json_rejects_blank_title :
    ScriptSpec NonEmptyStrAt scriptBlankTitle ∧
    validate_script_json scriptBlankTitle = false := by
  refine ⟨⟨⟨" ", rfl, by decide⟩, ⟨"A friendly intro.", rfl, by decide⟩,
    ⟨_, rfl, by simp, ?_⟩⟩, rfl⟩
  intro seg hs
  simp only [List.mem_singleton] at hs
  subst hs
  refine ⟨_, rfl, ?_⟩
  intro f hf
  simp only [requiredSegmentFields, List.mem_cons, List.not_mem_nil] at hf
  rcases hf with rfl | rfl | rfl | rfl | h
  · exact ⟨"What We Studied", rfl, by decide⟩
  · exact ⟨"We studied a new medicine.", rfl, by decide⟩
  · exact ⟨"A cartoon pill.", rfl, by decide⟩
  · exact ⟨"Understand the study.", rfl, by decide⟩
  · cases h

/-- C5 (amended): validate_script_json accepts exactly the JSON objects
with non-blank (rather than merely non-empty) string video_title and
video_intro and a non-empty segments list whose every member is an object
whose four required fields are non-blank strings; rejection is exactly
characterized by violation of these non-blank-field invariants. -/
theorem validate_script_json_iff (d : List (String × Json)) :
    validate_script_json d = true ↔ ScriptSpec NonBlankStrAt d := by
  constructor
  · intro h
    simp only [validate_script_json, Bool.and_eq_true, List.all_eq_true] at h
    obtain ⟨⟨⟨hpres, htitle⟩, hintro⟩, hsegs⟩ := h
    refine ⟨(isNonBlankStr_iff _).mp htitle, (isNonBlankStr_iff _).mp hintro, ?_⟩
    rcases hs0 : dictFind d "segments" with _ | j
    · rw [hs0] at hsegs; simp at hsegs
    · rw [hs0] at hsegs
      cases j <;> simp at hsegs
      case arr segs =>
        exact ⟨segs, rfl, hsegs.1,
          fun seg hs => (validSegment_iff seg).mp (hsegs.2 seg hs)⟩
  · rintro ⟨⟨t, ht, htne⟩, ⟨it, hit, hitne⟩, segs, hsegs, hne, hall⟩
    simp only [validate_script_json, Bool.and_eq_true, List.all_eq_true]
    refine ⟨⟨⟨?_, ?_⟩, ?_⟩, ?_⟩
    · intro k hk
      simp only [List.mem_cons, List.not_mem_nil] at hk
      rcases hk with rfl | rfl | rfl | h
      · simp [ht]
      · simp [hit]
      · simp [hsegs]
      · cases h
    · rw [isNonBlankStr_iff]; exact ⟨t, ht, htne⟩
    · rw [isNonBlankStr_iff]; exact ⟨it, hit, hitne⟩
    · rw [hsegs]
      simp only [Bool.and_eq_true, List.all_eq_true]
      exact ⟨by simpa using hne, fun seg hs => (validSegment_iff seg).mpr (hall seg hs)⟩

/-- A fully valid script for the witness. -/
def scriptValid : List (String × Json) :=
  [("video_title", Json.str "Gene Therapy Basics"),
   ("video_intro", Json.str "A friendly intro."),
   ("segments", Json.arr [Json.obj
     [("section_title", Json.str "What We Studied"),
      ("narration", Json.str "We studied a new medicine."),
      ("image_description", Json.str "A cartoon pill."),
      ("educational_goal", Json.str "Understand the study.")]])]

/-- Witness for validate_script_json_iff: the equivalence applied at a
concrete accepted script. -/
theorem validate_script_json_iff_witness :
    ScriptSpec NonBlankStrAt scriptValid :=
  (validate_script_json_iff scriptValid).mp rfl

/-! ## C9: stage 2 structural validation -/

lemma assetHasKeys_obj (kvs : List (String × Json)) (ks : List String) :
    assetHasKeys (Json.obj kvs) ks =
      Except.ok (ks.all (fun k => (dictFind kvs k).isSome)) := by
  induction ks with
  | nil => rfl
  | cons k ks ih =>
    simp only [assetHasKeys, pyInJson, List.all_cons]
    cases h : (dictFind kvs k).isSome
    · simp [h]
    · simp [h, ih]

lemma assetsAllValid_objs (objs : List (List (String × Json))) :
    assetsAllValid (objs.map Json.obj) =
      Except.ok (objs.all (fun kvs =>
        assetRequiredKeys.all (fun k => (dictFind kvs k).isSome))) := by
  induction objs with
  | nil => rfl
  | cons kvs rest ih =>
    simp only [List.map_cons, assetsAllValid, assetHasKeys_obj, List.all_cons]
    cases h : assetRequiredKeys.all (fun k => (dictFind kvs k).isSome)
    · simp [h]
    · simp [h, ih]

/-- An asset list whose single asset has all four required keys but with
empty-string values for name, style and purpose and a number (wrong type)
for prompt. -/
def assetsEmptyValues : Json :=
  Json.arr [Json.obj [("name", Json.str ""), ("style", Json.str ""),
    ("purpose", Json.str ""), ("prompt", Json.num "3")]]

/-- C9 counterexample.  The claim says stage 2 validation fails outright
on an empty string or a wrong type for a required field.  The source's
validate_assets_json tests only k not in a, so this asset list — empty
strings for three fields and a number for the fourth — passes validation
and the stage 2 persist step accepts it. -/
theorem stage2_validate_accepts_empty_values :
    validate_assets_json assetsEmptyValues = Except.ok true ∧
    stage2_validate assetsEmptyValues = Except.ok () :=
  ⟨rfl, rfl⟩

/-- C9 (amended): for a list of JSON objects, the stage 2 validation step
succeeds if and only if every asset object has all four required keys
name, style, purpose and prompt present; values are never inspected, so
wrong types and empty strings are accepted and the non-empty-field
invariant on those fields does not hold for persisted assets. -/
theorem stage2_validate_iff_keys_present (objs : List (List (String × Json))) :
    stage2_validate (Json.arr (objs.map Json.obj)) = Except.ok () ↔
      ∀ kvs ∈ objs, ∀ k ∈ assetRequiredKeys, (dictFind kvs k).isSome := by
  have hv : validate_assets_json (Json.arr (objs.map Json.obj)) =
      Except.ok (objs.all (fun kvs =>
        assetRequiredKeys.all (fun k => (dictFind kvs k).isSome))) := by
    simp [validate_assets_json, assetsAllValid_objs]
  have hs : stage2_validate (Json.arr (objs.map Json.obj)) =
      cond (objs.all (fun kvs =>
        assetRequiredKeys.all (fun k => (dictFind kvs k).isSome)))
        (Except.ok ()) (Except.error "Invalid assets JSON") := by
    unfold stage2_validate
    rw [hv]
    cases objs.all (fun kvs =>
      assetRequiredKeys.all (fun k => (dictFind kvs k).isSome))
    · rfl
    · rfl
  rw [hs]
  cases h : objs.all (fun kvs =>
      assetRequiredKeys.all (fun k => (dictFind kvs k).isSome))
  · simp only [cond_false]
    constructor
    · intro habs
      exact Except.noConfusion habs
    · intro hall
      rw [List.all_eq_false] at h
      obtain ⟨kvs, hmem, hbad⟩ := h
      exfalso
      apply hbad
      rw [List.all_eq_true]
      intro k hk
      exact hall kvs hmem k hk
  · simp only [cond_true, List.all_eq_true] at h ⊢
    exact ⟨fun _ => h, fun _ => trivial⟩

/-- Witness for stage2_validate_iff_keys_present: the equivalence applied
at a concrete well-keyed asset list. -/
theorem stage2_validate_iff_keys_present_witness :
    stage2_validate (Json.arr ([[("name", Json.str "cell"),
      ("style", Json.str "cartoon"), ("purpose", Json.str "show a cell"),
      ("prompt", Json.str "a simple cartoon cell")]].map Json.obj)) =
      Except.ok () :=
  (stage2_validate_iff_keys_present [[("name", Json.str "cell"),
    ("style", Json.str "cartoon"), ("purpose", Json.str "show a cell"),
    ("prompt", Json.str "a simple cartoon cell")]]).mpr (by
      intro kvs hm
      simp only [List.mem_singleton] at hm
      subst hm
      decide)

/-! ## C1: stage 3 retry budget -/

lemma tryAttempts_some (ep : Nat → Bool) :
    ∀ n base k, tryAttempts ep base n = some k →
      base ≤ k ∧ k < base + n ∧ ep k = true := by
  intro n
  induction n with
  | zero =>
    intro base k h
    exact absurd h (by simp [tryAttempts])
  | succ m ih =>
    intro base k h
    simp only [tryAttempts] at h
    by_cases hb : ep base
    · rw [if_pos hb] at h
      cases h
      exact ⟨Nat.le_refl _, by omega, hb⟩
    · rw [if_neg hb] at h
      obtain ⟨h1, h2, h3⟩ := ih (base + 1) k h
      exact ⟨by omega, by omega, h3⟩

/-- C1: for every asset, the endpoint is attempted with the literal
prompt at most 3 times, a simplified prompt is attempted (at most 3 more
times) only after all 3 literal attempts failed, and the total number of
endpoint calls never exceeds 6.  If the endpoint fails the first 2 calls
and succeeds on the 3rd, the loop produces a success record with the
simplified flag unset after exactly 3 calls; if the endpoint always
fails, exactly 6 calls are made and no record is produced (the model is a
total function: the source logs and continues). -/
theorem stage3_retry_budget (ep : Nat → Bool) (simplify : String → String)
    (imagesDir name originalPrompt : String) :
    (generateOneImage ep simplify imagesDir name originalPrompt).2.length ≤ 6 ∧
    (∃ a b, a ≤ 3 ∧ b ≤ 3 ∧ (1 ≤ b → a = 3) ∧
      (generateOneImage ep simplify imagesDir name originalPrompt).2 =
        List.replicate a originalPrompt ++
        List.replicate b (simplify originalPrompt)) ∧
    (ep 0 = false → ep 1 = false → ep 2 = true →
      (generateOneImage ep simplify imagesDir name originalPrompt).1 =
        some ⟨name, imagesDir ++ "/" ++ name ++ ".png", originalPrompt, false⟩ ∧
      (generateOneImage ep simplify imagesDir name originalPrompt).2.length = 3) ∧
    ((∀ i, ep i = false) →
      (generateOneImage ep simplify imagesDir name originalPrompt).1 = none ∧
      (generateOneImage ep simplify imagesDir name originalPrompt).2.length = 6) := by
  cases hfirst : tryAttempts ep 0 3 with
  | some k =>
    obtain ⟨hk0, hk3, hkt⟩ := tryAttempts_some ep 3 0 k hfirst
    refine ⟨?_, ⟨k + 1, 0, by omega, by omega, by omega, ?_⟩, ?_, ?_⟩
    · simp [generateOneImage, hfirst]
      omega
    · simp [generateOneImage, hfirst]
    · intro hA hB hC
      have h2 : tryAttempts ep 0 3 = some 2 := by
        simp [tryAttempts, hA, hB, hC]
      rw [hfirst] at h2
      cases h2
      constructor
      · simp [generateOneImage, hfirst]
      · simp [generateOneImage, hfirst]
    · intro hall
      rw [hall k] at hkt
      exact Bool.noConfusion hkt
  | none =>
    cases hsecond : tryAttempts ep 3 3 with
    | some k =>
      obtain ⟨hk3, hk6, hkt⟩ := tryAttempts_some ep 3 3 k hsecond
      refine ⟨?_, ⟨3, k - 2, by omega, by omega, by omega, ?_⟩, ?_, ?_⟩
      · simp [generateOneImage, hfirst, hsecond]
        omega
      · simp [generateOneImage, hfirst, hsecond]
      · intro hA hB hC
        have h2 : tryAttempts ep 0 3 = some 2 := by
          simp [tryAttempts, hA, hB, hC]
        rw [hfirst] at h2
        exact Option.noConfusion h2
      · intro hall
        rw [hall k] at hkt
        exact Bool.noConfusion hkt
    | none =>
      refine ⟨?_, ⟨3, 3, by omega, by omega, by omega, ?_⟩, ?_, ?_⟩
      · simp [generateOneImage, hfirst, hsecond]
      · simp [generateOneImage, hfirst, hsecond]
      · intro hA hB hC
        have h2 : tryAttempts ep 0 3 = some 2 := by
          simp [tryAttempts, hA, hB, hC]
        rw [hfirst] at h2
        exact Option.noConfusion h2
      · intro _
        constructor
        · simp [generateOneImage, hfirst, hsecond]
        · simp [generateOneImage, hfirst, hsecond]

/-- Witness for stage3_retry_budget: the endpoint that fails calls 0 and
1 and succeeds on call 2 yields a success with the simplified flag unset
in exactly 3 calls. -/
theorem stage3_retry_budget_witness :
    (generateOneImage (fun i => i == 2) (fun s => s) "images" "cell"
      "a cartoon cell").1 =
      some ⟨"cell", "images" ++ "/" ++ "cell" ++ ".png", "a cartoon cell", false⟩ ∧
    (generateOneImage (fun i => i == 2) (fun s => s) "images" "cell"
      "a cartoon cell").2.length = 3 :=
  (stage3_retry_budget (fun i => i == 2) (fun s => s) "images" "cell"
    "a cartoon cell").2.2.1 rfl rfl rfl

/-! ## C7: stage 3 partial-failure containment -/

/-- run_full_pipeline lines 1082-1104: stage 4 is invoked directly on
stage 3's result list (no abort path between them). -/
def pipelineStage3to4 (ep : Nat → Nat → Bool) (simplify : String → String)
    (imagesDir : String) (rembgAvailable : Bool) (pathExists : String → Bool)
    (removeOk : Nat → Bool) (assets : List Asset) : Except String (List ImgInfo) :=
  match stage3_generate_images ep simplify imagesDir assets with
  | Except.error e => Except.error e
  | Except.ok imgs =>
    Except.ok (stage4_remove_backgrounds rembgAvailable pathExists removeOk
      imagesDir (imgs.map imageResultToInfo))

lemma stage3Go_ok (ep : Nat → Nat → Bool) (simplify : String → String)
    (imagesDir : String) :
    ∀ (assets : List Asset) (idx : Nat),
      (∀ a ∈ assets, (assetOriginalPrompt a).isSome) →
      ∃ rs, stage3Go ep simplify imagesDir assets idx = Except.ok rs ∧
        rs.length ≤ assets.length := by
  intro assets
  induction assets with
  | nil =>
    intro idx _
    exact ⟨[], rfl, by simp⟩
  | cons a rest ih =>
    intro idx h
    obtain ⟨pr, hpr⟩ := Option.isSome_iff_exists.mp (h a (List.mem_cons_self a rest))
    obtain ⟨rs, hrs, hlen⟩ := ih (idx + 1) (fun x hx => h x (List.mem_cons_of_mem a hx))
    cases hone : (generateOneImage (ep idx) simplify imagesDir (assetFileName a) pr).1 with
    | none =>
      refine ⟨rs, ?_, ?_⟩
      · simp [stage3Go, hpr, hrs, hone]
      · simp only [List.length_cons]
        omega
    | some r =>
      refine ⟨r :: rs, ?_, ?_⟩
      · simp [stage3Go, hpr, hrs, hone]
      · simp only [List.length_cons]
        omega

/-- Endpoint oracle for the scenario: the asset at position 2 fails every
call, every other asset succeeds on its first call. -/
def epAllButThird : Nat → Nat → Bool := fun idx _ => idx != 2

def fiveAssets : List Asset :=
  [⟨some "a0", some "p0"⟩, ⟨some "a1", some "p1"⟩, ⟨some "a2", some "p2"⟩,
   ⟨some "a3", some "p3"⟩, ⟨some "a4", some "p4"⟩]

/-- C7: stage 3 never aborts the batch on a single asset's failure — for
any asset list whose entries carry a usable prompt the stage returns a
result list (no exception), at most one entry per asset; and in the
concrete scenario where exactly one of five assets fails all 6 attempts,
the output list has length 4 and stage 4 still runs on it (the pipeline
proceeds without aborting). -/
theorem stage3_never_aborts (ep : Nat → Nat → Bool) (simplify : String → String)
    (imagesDir : String) (assets : List Asset)
    (h : ∀ a ∈ assets, (assetOriginalPrompt a).isSome) :
    (∃ rs, stage3_generate_images ep simplify imagesDir assets = Except.ok rs ∧
      rs.length ≤ assets.length) ∧
    (∃ rs, stage3_generate_images epAllButThird (fun s => s) "images" fiveAssets =
      Except.ok rs ∧ rs.length = 4) ∧
    (∃ out, pipelineStage3to4 epAllButThird (fun s => s) "images" true
      (fun _ => true) (fun _ => true) fiveAssets = Except.ok out ∧
      out.length = 4) := by
  refine ⟨stage3Go_ok ep simplify imagesDir assets 0 h, ⟨_, rfl, rfl⟩, ⟨_, rfl, rfl⟩⟩

/-- Witness for stage3_never_aborts: applied to the five-asset scenario
itself. -/
theorem stage3_never_aborts_witness :
    ∃ rs, stage3_generate_images epAllButThird (fun s => s) "images" fiveAssets =
      Except.ok rs ∧ rs.length ≤ fiveAssets.length :=
  (stage3_never_aborts epAllButThird (fun s => s) "images" fiveAssets
    (by decide)).1

/-! ## C10: sanitized image names -/

lemma generateOneImage_fields (ep : Nat → Bool) (simplify : String → String)
    (imagesDir name originalPrompt : String) (r : ImageResult)
    (h : (generateOneImage ep simplify imagesDir name originalPrompt).1 = some r) :
    r.name = name ∧ r.path = imagesDir ++ "/" ++ name ++ ".png" := by
  unfold generateOneImage at h
  cases h1 : tryAttempts ep 0 3 with
  | some k =>
    rw [h1] at h
    simp only at h
    cases h
    exact ⟨rfl, rfl⟩
  | none =>
    rw [h1] at h
    cases h2 : tryAttempts ep 3 3 with
    | some k =>
      rw [h2] at h
      simp only at h
      cases h
      exact ⟨rfl, rfl⟩
    | none =>
      rw [h2] at h
      simp only at h
      exact Option.noConfusion h

lemma stage3Go_names (ep : Nat → Nat → Bool) (simplify : String → String)
    (imagesDir : String) :
    ∀ (assets : List Asset) (idx : Nat) (rs : List ImageResult),
      stage3Go ep simplify imagesDir assets idx = Except.ok rs →
      ∀ r ∈ rs, ∃ a ∈ assets, r.name = sanitizeName (a.name.getD "asset") ∧
        r.path = imagesDir ++ "/" ++ r.name ++ ".png" := by
  intro assets
  induction assets with
  | nil =>
    intro idx rs h r hr
    simp only [stage3Go] at h
    cases h
    cases hr
  | cons a rest ih =>
    intro idx rs h r hr
    simp only [stage3Go] at h
    cases hpr : assetOriginalPrompt a with
    | none => rw [hpr] at h; exact Except.noConfusion h
    | some pr =>
      rw [hpr] at h
      cases hrec : stage3Go ep simplify imagesDir rest (idx + 1) with
      | error e => rw [hrec] at h; exact Except.noConfusion h
      | ok rs0 =>
        rw [hrec] at h
        simp only at h
        cases hone : (generateOneImage (ep idx) simplify imagesDir
            (assetFileName a) pr).1 with
        | none =>
          rw [hone] at h
          cases h
          obtain ⟨a0, ha0, hn, hp⟩ := ih (idx + 1) rs0 hrec r hr
          exact ⟨a0, List.mem_cons_of_mem a ha0, hn, hp⟩
        | some r0 =>
          rw [hone] at h
          cases h
          rcases List.mem_cons.mp hr with rfl | hr0
          · obtain ⟨hn, hp⟩ := generateOneImage_fields _ _ _ _ _ _ hone
            refine ⟨a, List.mem_cons_self a rest, ?_, ?_⟩
            · exact hn
            · rw [hp, hn]
          · obtain ⟨a0, ha0, hn, hp⟩ := ih (idx + 1) rs0 hrec r hr0
            exact ⟨a0, List.mem_cons_of_mem a ha0, hn, hp⟩

lemma stage4Process_name (pathExists : String → Bool) (removeOk : Nat → Bool)
    (outputDir : String) (idx : Nat) (img : ImgInfo) :
    (stage4Process pathExists removeOk outputDir idx img).name = img.name := by
  unfold stage4Process
  cases img.path
  · rfl
  · dsimp only
    split
    · rfl
    · split <;> rfl

lemma stage4Go_names (pathExists : String → Bool) (removeOk : Nat → Bool)
    (outputDir : String) :
    ∀ (imgs : List ImgInfo) (idx : Nat),
      (stage4Go pathExists removeOk outputDir imgs idx).map ImgInfo.name =
        imgs.map ImgInfo.name := by
  intro imgs
  induction imgs with
  | nil => intro idx; rfl
  | cons img rest ih =>
    intro idx
    simp only [stage4Go, List.map_cons, stage4Process_name, ih]

/-- C10: every ImageResult stage 3 produces is named by the asset's name
sanitized — every character outside A-Z a-z 0-9 underscore hyphen
replaced by an underscore, with the literal "asset" substituted when the
name key is absent — and its file path is built from that sanitized name;
stage 4 preserves the name field of every entry, so stage 6's image
lookup over images_info operates on these sanitized names, not the raw
stage 2 names. -/
theorem stage3_names_sanitized (ep : Nat → Nat → Bool)
    (simplify : String → String) (imagesDir : String) (assets : List Asset)
    (rs : List ImageResult)
    (h : stage3_generate_images ep simplify imagesDir assets = Except.ok rs) :
    (∀ r ∈ rs, ∃ a ∈ assets, r.name = sanitizeName (a.name.getD "asset") ∧
      r.path = imagesDir ++ "/" ++ r.name ++ ".png") ∧
    (∀ (rembgAvailable : Bool) (pathExists : String → Bool)
      (removeOk : Nat → Bool) (outputDir : String) (imgs : List ImgInfo),
      (stage4_remove_backgrounds rembgAvailable pathExists removeOk outputDir
        imgs).map ImgInfo.name = imgs.map ImgInfo.name) := by
  constructor
  · exact stage3Go_names ep simplify imagesDir assets 0 rs h
  · intro rembgAvailable pathExists removeOk outputDir imgs
    unfold stage4_remove_backgrounds
    split
    · rfl
    · exact stage4Go_names pathExists removeOk outputDir imgs 0

/-- Witness for stage3_names_sanitized: an asset named "Cell Diagram!"
yields a result named "Cell_Diagram_". -/
theorem stage3_names_sanitized_witness :
    ∃ a ∈ [Asset.mk (some "Cell Diagram!") (some "a cartoon cell")],
      (ImageResult.mk "Cell_Diagram_" "images/Cell_Diagram_.png"
        "a cartoon cell" false).name = sanitizeName (a.name.getD "asset") ∧
      (ImageResult.mk "Cell_Diagram_" "images/Cell_Diagram_.png"
        "a cartoon cell" false).path = "images" ++ "/" ++
        (ImageResult.mk "Cell_Diagram_" "images/Cell_Diagram_.png"
          "a cartoon cell" false).name ++ ".png" :=
  (stage3_names_sanitized (fun _ _ => true) (fun s => s) "images"
    [Asset.mk (some "Cell Diagram!") (some "a cartoon cell")] _ rfl).1
    (ImageResult.mk "Cell_Diagram_" "images/Cell_Diagram_.png"
      "a cartoon cell" false) (List.mem_cons_self _ _)

/-! ## C6: stage 4 contract -/

lemma stage4Go_length (pathExists : String → Bool) (removeOk : Nat → Bool)
    (outputDir : String) :
    ∀ (imgs : List ImgInfo) (idx : Nat),
      (stage4Go pathExists removeOk outputDir imgs idx).length = imgs.length := by
  intro imgs
  induction imgs with
  | nil => intro idx; rfl
  | cons img rest ih =>
    intro idx
    simp only [stage4Go, List.length_cons, ih]

lemma stage4Go_get (pathExists : String → Bool) (removeOk : Nat → Bool)
    (outputDir : String) :
    ∀ (imgs : List ImgInfo) (idx i : Nat) (h : i < imgs.length)
      (h2 : i < (stage4Go pathExists removeOk outputDir imgs idx).length),
      (stage4Go pathExists removeOk outputDir imgs idx).get ⟨i, h2⟩ =
        stage4Process pathExists removeOk outputDir (idx + i) (imgs.get ⟨i, h⟩) := by
  intro imgs
  induction imgs with
  | nil =>
    intro idx i h h2
    exact absurd h (by simp)
  | cons img rest ih =>
    intro idx i h h2
    cases i with
    | zero => rfl
    | succ j =>
      have hj : j < rest.length := by
        simp only [List.length_cons] at h
        omega
      have hj2 : j < (stage4Go pathExists removeOk outputDir rest (idx + 1)).length := by
        rw [stage4Go_length]
        exact hj
      have := ih (idx + 1) j hj hj2
      simp only [stage4Go, List.get_cons_succ]
      rw [this]
      congr 1
      omega

/-- The background-removed output path for an input entry at index i. -/
def nobgOutputPath (outputDir : String) (img : ImgInfo) (i : Nat) : String :=
  outputDir ++ "/no_bg/" ++ img.name.getD ("image_" ++ toString i) ++ "_nobg.png"

lemma stage4Process_cases (pathExists : String → Bool) (removeOk : Nat → Bool)
    (outputDir : String) (idx : Nat) (img : ImgInfo) :
    stage4Process pathExists removeOk outputDir idx img = img ∨
    ∃ p, img.path = some p ∧
      stage4Process pathExists removeOk outputDir idx img =
        { img with path := some (nobgOutputPath outputDir img idx),
                   originalPath := some p, backgroundRemoved := true } := by
  unfold stage4Process
  cases hp : img.path with
  | none => exact Or.inl rfl
  | some p =>
    dsimp only
    split
    · exact Or.inl rfl
    · split
      · exact Or.inr ⟨p, rfl, rfl⟩
      · exact Or.inl rfl

lemma stage4Process_success (pathExists : String → Bool) (removeOk : Nat → Bool)
    (outputDir : String) (idx : Nat) (img : ImgInfo) (p : String)
    (hp : img.path = some p) (hne : p ≠ "") (hex : pathExists p = true)
    (hrm : removeOk idx = true) :
    stage4Process pathExists removeOk outputDir idx img =
      { img with path := some (nobgOutputPath outputDir img idx),
                 originalPath := some p, backgroundRemoved := true } := by
  unfold stage4Process
  rw [hp]
  dsimp only
  rw [if_neg, if_pos hrm]
  · rfl
  · intro hor
    rcases hor with h1 | h1
    · exact hne h1
    · rw [hex] at h1
      exact h1 rfl

/-- C6: stage 4 returns a list of the same length and order as its input
— no entry is ever dropped and no per-image failure escapes — in which
every entry either is the unchanged input entry (per-image failure,
missing or non-existing file) or is the input entry with its path
redirected to the background-removed file; when the removal succeeds for
an entry with an existing file the redirected form is produced; and when
the rembg capability is absent the input list is returned unchanged. -/
theorem stage4_same_length_contract (rembgAvailable : Bool)
    (pathExists : String → Bool) (removeOk : Nat → Bool) (outputDir : String)
    (imagesInfo : List ImgInfo) :
    (rembgAvailable = false →
      stage4_remove_backgrounds rembgAvailable pathExists removeOk outputDir
        imagesInfo = imagesInfo) ∧
    (stage4_remove_backgrounds rembgAvailable pathExists removeOk outputDir
      imagesInfo).length = imagesInfo.length ∧
    (∀ i (h : i < imagesInfo.length)
      (h2 : i < (stage4_remove_backgrounds rembgAvailable pathExists removeOk
        outputDir imagesInfo).length),
      (stage4_remove_backgrounds rembgAvailable pathExists removeOk outputDir
        imagesInfo).get ⟨i, h2⟩ = imagesInfo.get ⟨i, h⟩ ∨
      ∃ p, (imagesInfo.get ⟨i, h⟩).path = some p ∧
        (stage4_remove_backgrounds rembgAvailable pathExists removeOk outputDir
          imagesInfo).get ⟨i, h2⟩ =
          { imagesInfo.get ⟨i, h⟩ with
              path := some (nobgOutputPath outputDir (imagesInfo.get ⟨i, h⟩) i),
              originalPath := some p, backgroundRemoved := true }) ∧
    (∀ i (h : i < imagesInfo.length)
      (h2 : i < (stage4_remove_backgrounds rembgAvailable pathExists removeOk
        outputDir imagesInfo).length) (p : String),
      rembgAvailable = true → (imagesInfo.get ⟨i, h⟩).path = some p → p ≠ "" →
      pathExists p = true → removeOk i = true →
      (stage4_remove_backgrounds rembgAvailable pathExists removeOk outputDir
        imagesInfo).get ⟨i, h2⟩ =
        { imagesInfo.get ⟨i, h⟩ with
            path := some (nobgOutputPath outputDir (imagesInfo.get ⟨i, h⟩) i),
            originalPath := some p, backgroundRemoved := true }) := by
  cases rembgAvailable with
  | false =>
    refine ⟨fun _ => rfl, rfl, ?_, ?_⟩
    · intro i h h2
      exact Or.inl rfl
    · intro i h h2 p habs
      exact absurd habs (by simp)
  | true =>
    have hunfold : stage4_remove_backgrounds true pathExists removeOk outputDir
        imagesInfo = stage4Go pathExists removeOk outputDir imagesInfo 0 := rfl
    refine ⟨fun habs => absurd habs (by simp), ?_, ?_, ?_⟩
    · rw [hunfold, stage4Go_length]
    · intro i h h2
      have hget : (stage4_remove_backgrounds true pathExists removeOk outputDir
          imagesInfo).get ⟨i, h2⟩ =
          stage4Process pathExists removeOk outputDir (0 + i)
            (imagesInfo.get ⟨i, h⟩) :=
        stage4Go_get pathExists removeOk outputDir imagesInfo 0 i h h2
      rw [Nat.zero_add] at hget
      rw [hget]
      exact stage4Process_cases pathExists removeOk outputDir i (imagesInfo.get ⟨i, h⟩)
    · intro i h h2 p _ hp hne hex hrm
      have hget : (stage4_remove_backgrounds true pathExists removeOk outputDir
          imagesInfo).get ⟨i, h2⟩ =
          stage4Process pathExists removeOk outputDir (0 + i)
            (imagesInfo.get ⟨i, h⟩) :=
        stage4Go_get pathExists removeOk outputDir imagesInfo 0 i h h2
      rw [Nat.zero_add] at hget
      rw [hget]
      exact stage4Process_success pathExists removeOk outputDir i
        (imagesInfo.get ⟨i, h⟩) p hp hne hex hrm

/-- Witness for stage4_same_length_contract: one concrete entry whose
removal succeeds gets the no_bg path. -/
theorem stage4_same_length_contract_witness :
    (stage4_remove_backgrounds true (fun _ => true) (fun _ => true) "images"
      [ImgInfo.mk (some "cell") (some "images/cell.png") (some "a cell") false
        none false]).get ⟨0, by decide⟩ =
      { ImgInfo.mk (some "cell") (some "images/cell.png") (some "a cell") false
          none false with
        path := some (nobgOutputPath "images"
          (([ImgInfo.mk (some "cell") (some "images/cell.png") (some "a cell")
            false none false]).get ⟨0, by decide⟩) 0),
        originalPath := some "images/cell.png", backgroundRemoved := true } :=
  (stage4_same_length_contract true (fun _ => true) (fun _ => true) "images"
    [ImgInfo.mk (some "cell") (some "images/cell.png") (some "a cell") false
      none false]).2.2.2 0 (by decide) (by decide) "images/cell.png" rfl rfl
    (by decide) rfl rfl

/-! ## C8: stage 5 fallback behavior -/

lemma dictFind_append (d1 d2 : List (String × Json)) (k : String) :
    dictFind (d1 ++ d2) k = (dictFind d1 k).or (dictFind d2 k) := by
  unfold dictFind
  rw [List.find?_append]
  cases d1.find? (fun p => p.1 == k) <;> rfl

lemma dictFind_setdefault_ne (d : List (String × Json)) (k1 k2 : String)
    (v : Json) (h : k1 ≠ k2) :
    dictFind (dictSetdefault d k1 v) k2 = dictFind d k2 := by
  unfold dictSetdefault
  split
  · rfl
  · rw [dictFind_append]
    have hone : dictFind [(k1, v)] k2 = none := by
      have hb : (k1 == k2) = false := beq_eq_false_iff_ne.mpr h
      simp [dictFind, List.find?, hb]
    rw [hone]
    cases dictFind d k2 <;> rfl

lemma dictFind_setdefault_none (d : List (String × Json)) (k : String) (v : Json)
    (h : dictFind d k = none) :
    dictFind (dictSetdefault d k v) k = some v := by
  unfold dictSetdefault
  rw [h]
  simp only [Option.isSome_none, Bool.false_eq_true, if_false]
  rw [dictFind_append, h]
  simp [dictFind, List.find?]

/-- A segment whose narration has 30 words, so the documented clamp
default is min 12 (30 / 2) = 12 seconds. -/
def segThirtyWords : Segment :=
  ⟨"How It Works",
   "w w w w w w w w w w w w w w w w w w w w w w w w w w w w w w",
   "Understand the dosing schedule"⟩

/-- C8 counterexample.  The claim says stage 5 never fails outright on a
malformed model response and that a response lacking slide_duration gets
the clamp(words / 2, 5, 12) default.  In the source, a response with no
parseable JSON makes robust_parse_json raise, uncaught, failing the
stage; and a parseable-but-non-object response gets the synthesized
fallback slide whose duration is the fixed 6, not the clamp value (12
for this 30-word segment). -/
theorem stage5_counterexample :
    stage5ProcessSegment segThirtyWords "The model refused to answer." =
      Except.error "Unable to parse JSON from model output" ∧
    stage5ProcessSegment segThirtyWords "[1, 2]" =
      Except.ok (fallbackSlide segThirtyWords) ∧
    dictFind (fallbackSlide segThirtyWords) "slide_duration" =
      some (Json.num "6") ∧
    Json.num "6" ≠ Json.num (toString (defaultSlideDuration segThirtyWords)) := by
  refine ⟨rfl, rfl, rfl, ?_⟩
  intro habs
  rw [show toString (defaultSlideDuration segThirtyWords) = "12" from rfl] at habs
  have h2 := Json.num.inj habs
  exact absurd h2 (by decide)

/-- C8 (amended): stage 5 degrades without failing only when the model
response parses at all — a ValueError from robust_parse_json propagates
and fails the stage; a response that parses to a non-object is replaced
by the synthesized minimal slide built from the segment's title and goal
with a fixed 6-second duration; and when the response is an object
lacking slide_duration, that key defaults to
clamp(narration_word_count / 2, 5, 12). -/
theorem stage5_fallback_behavior (seg : Segment) (raw : String) :
    (∀ e, robust_parse_json raw = Except.error e →
      stage5ProcessSegment seg raw = Except.error e) ∧
    (∀ j, robust_parse_json raw = Except.ok j → (∀ kvs, j ≠ Json.obj kvs) →
      stage5ProcessSegment seg raw = Except.ok (fallbackSlide seg)) ∧
    (∀ kvs, robust_parse_json raw = Except.ok (Json.obj kvs) →
      dictFind kvs "slide_duration" = none →
      ∃ d, stage5ProcessSegment seg raw = Except.ok d ∧
        dictFind d "slide_duration" =
          some (Json.num (toString (defaultSlideDuration seg)))) := by
  refine ⟨?_, ?_, ?_⟩
  · intro e h
    unfold stage5ProcessSegment
    rw [h]
  · intro j hj hno
    unfold stage5ProcessSegment
    rw [hj]
    cases j with
    | obj kvs => exact absurd rfl (hno kvs)
    | null => rfl
    | bool b => rfl
    | num s => rfl
    | str s => rfl
    | arr xs => rfl
  · intro kvs hk hnone
    unfold stage5ProcessSegment
    rw [hk]
    dsimp only
    refine ⟨_, rfl, ?_⟩
    have h1 : dictFind (dictSetdefault kvs "slide_title"
        (Json.str seg.section_title)) "slide_duration" = none := by
      rw [dictFind_setdefault_ne _ _ _ _ (by decide)]
      exact hnone
    have h2 : dictFind (dictSetdefault (dictSetdefault kvs "slide_title"
        (Json.str seg.section_title)) "caption"
        (Json.str seg.educational_goal)) "slide_duration" = none := by
      rw [dictFind_setdefault_ne _ _ _ _ (by decide)]
      exact h1
    exact dictFind_setdefault_none _ _ _ h2

/-- Witness for stage5_fallback_behavior: its third conjunct applied to a
concrete object response lacking slide_duration. -/
theorem stage5_fallback_behavior_witness :
    ∃ d, stage5ProcessSegment segThirtyWords "\x7b\"x\": 1\x7d" = Except.ok d ∧
      dictFind d "slide_duration" =
        some (Json.num (toString (defaultSlideDuration segThirtyWords))) :=
  (stage5_fallback_behavior segThirtyWords "\x7b\"x\": 1\x7d").2.2
    [("x", Json.num "1")] rfl rfl

/-! ## C3: stage 6 asset-name resolution -/

def allPathsExist : String → Bool := fun _ => true

def imgCellNobg : ImgInfo :=
  ⟨some "celldiagram_nobg", some "images/no_bg/celldiagram_nobg.png", none,
   false, none, false⟩

def imgImmuneCells : ImgInfo :=
  ⟨some "immune_cells", some "images/immune_cells.png", none, false, none, false⟩

def imgUnrelatedA : ImgInfo :=
  ⟨some "doctor_cartoon", some "images/doctor_cartoon.png", none, false, none, false⟩

def imgUnrelatedB : ImgInfo :=
  ⟨some "pill_bottle", some "images/pill_bottle.png", none, false, none, false⟩

/-- C3 counterexample.  The claim states that request "immune response
graphic" matches available "immune_cells" via token-overlap with score
≥ 0.5.  The word sets are \x7bimmune, response, graphic\x7d and
\x7bimmune, cells\x7d: one common word out of max(3, 2) = 3 gives score 1/3 <
0.5, so the request remains unmatched (and no earlier cascade pass
matches it either). -/
theorem resolveImageName_immune_unmatched :
    resolveImageName allPathsExist [imgImmuneCells] "immune response graphic" =
      none ∧
    interCount (wordSet (pyLower "immune response graphic"))
      (wordSet (pyReplace (pyLower "immune_cells") "_nobg" "")) = 1 ∧
    max (wordSet (pyLower "immune response graphic")).length
      (wordSet (pyReplace (pyLower "immune_cells") "_nobg" "")).length = 3 :=
  ⟨rfl, rfl, rfl⟩

/-- C3 (amended): the resolution cascade tries, in order and first hit
wins: (1) exact or case-insensitive exact match including _nobg-suffixed
variants, (2) equality after stripping separators and case from both
names (the available side additionally drops a literal "_nobg"), (3)
substring containment either direction on the normalized forms, (4)
token-overlap scoring |common| / max(|A|, |B|) accepting the best
candidate with score ≥ 0.5; an unmatched reference is dropped, never an
error.  "Cell_Diagram" matches "celldiagram_nobg" via the normalized
pass; "immune response graphic" against "immune_cells" scores 1/3 and
stays unmatched (a request like "cells immune" does match via
token-overlap); "xyz123" stays unmatched against unrelated names. -/
theorem resolveImageName_cascade :
    (∀ (pathExists : String → Bool) (imagesInfo : List ImgInfo)
      (imgName p : String),
      sdictFind (buildLookups pathExists imagesInfo).1 imgName = some p →
      resolveImageName pathExists imagesInfo imgName = some (p, 1)) ∧
    resolveImageName allPathsExist [imgCellNobg] "Cell_Diagram" =
      some ("images/no_bg/celldiagram_nobg.png", 2) ∧
    resolveImageName allPathsExist [imgImmuneCells] "cells immune" =
      some ("images/immune_cells.png", 4) ∧
    resolveImageName allPathsExist [imgImmuneCells] "immune response graphic" =
      none ∧
    resolveImageName allPathsExist [imgUnrelatedA, imgUnrelatedB] "xyz123" =
      none ∧
    resolveSlideImages allPathsExist [imgImmuneCells] ["cells immune", "xyz123"] =
      ["images/immune_cells.png"] := by
  refine ⟨?_, rfl, rfl, rfl, rfl, rfl⟩
  intro pathExists imagesInfo imgName p h
  unfold resolveImageName
  simp only [List.findSome?_cons, h]

/-- Witness for resolveImageName_cascade: its first conjunct applied at a
concrete exact-name request. -/
theorem resolveImageName_cascade_witness :
    resolveImageName allPathsExist [imgCellNobg] "celldiagram_nobg" =
      some ("images/no_bg/celldiagram_nobg.png", 1) :=
  resolveImageName_cascade.1 allPathsExist [imgCellNobg] "celldiagram_nobg"
    "images/no_bg/celldiagram_nobg.png" rfl

/-! ## C4: stage 7 error policy -/

/-- C4 counterexample.  The claim says a per-slide render failure is
logged but does not abort the batch, the failed slide merely being
omitted from the concat list.  In the source the render command is run
with check=True, so a nonzero exit raises CalledProcessError, which no
handler catches: with two slides whose TTS and image lookup succeed but
whose first render fails, the stage aborts instead of returning the
claim's concat list ["tmp/slide_1.mp4"]. -/
theorem stage7_render_failure_aborts :
    stage7SegmentFiles (fun _ => Except.ok ()) (fun _ => some "slide.png")
      (fun i => i != 0) "tmp" 2 = Except.error "CalledProcessError" ∧
    stage7SegmentFiles (fun _ => Except.ok ()) (fun _ => some "slide.png")
      (fun i => i != 0) "tmp" 2 ≠ Except.ok ["tmp/slide_1.mp4"] := by
  refine ⟨rfl, ?_⟩
  intro h
  rw [show stage7SegmentFiles (fun _ => Except.ok ()) (fun _ => some "slide.png")
    (fun i => i != 0) "tmp" 2 = Except.error "CalledProcessError" from rfl] at h
  exact Except.noConfusion h

/-- C4 (amended): in stage 7's per-slide loop a TTS failure aborts the
entire stage (the error is propagated, never swallowed); a failure of
the per-slide ffmpeg render also aborts the stage, because the render is
invoked with check=True and the raised CalledProcessError is uncaught;
the per-slide condition that is logged and skipped without aborting is a
missing slide image — that slide alone is omitted from the concatenation
list and the remaining slides are still processed. -/
theorem stage7_error_policy (ttsOutcome : Nat → Except String Unit)
    (imageFor : Nat → Option String) (renderOk : Nat → Bool)
    (tmpDir : String) (i n : Nat) :
    (∀ e, ttsOutcome i = Except.error e →
      stage7Go ttsOutcome imageFor renderOk tmpDir i (n + 1) =
        Except.error ("Failed to generate audio for slide " ++ toString i ++
          ": " ++ e ++ ". Video creation cannot continue without audio narration.")) ∧
    (ttsOutcome i = Except.ok () → imageFor i = none →
      stage7Go ttsOutcome imageFor renderOk tmpDir i (n + 1) =
        stage7Go ttsOutcome imageFor renderOk tmpDir (i + 1) n) ∧
    (∀ p, ttsOutcome i = Except.ok () → imageFor i = some p →
      renderOk i = false →
      stage7Go ttsOutcome imageFor renderOk tmpDir i (n + 1) =
        Except.error "CalledProcessError") := by
  refine ⟨?_, ?_, ?_⟩
  · intro e h
    simp only [stage7Go, h]
  · intro ht hi
    simp only [stage7Go, ht, hi]
  · intro p ht hi hr
    simp only [stage7Go, ht, hi, hr]
    rfl

/-- Witness for stage7_error_policy: its render-failure conjunct applied
at a concrete slide. -/
theorem stage7_error_policy_witness :
    stage7Go (fun _ => Except.ok ()) (fun _ => some "slide.png")
      (fun _ => false) "tmp" 0 (1 + 1) = Except.error "CalledProcessError" :=
  (stage7_error_policy (fun _ => Except.ok ()) (fun _ => some "slide.png")
    (fun _ => false) "tmp" 0 1).2.2 "slide.png" rfl rfl rfl
